import Mathlib

set_option maxRecDepth 4000

/-!
Shallow embedding of the LastPass vault parser and key-derivation pipeline
(`src/parser.rs`, `src/keys/decryption_key.rs`, `src/keys/login_key.rs`).

Modelling conventions:
* Rust byte slices (`&[u8]`, `Vec<u8>`) are `List Nat` holding byte values;
  Rust `&str` / `String` values are the lists of their UTF-8 bytes.
* Calls into external crates with no source in this repository — the AES-256
  block decryption of the `aes` crate, and `url::Url::parse` — are passed in
  as function parameters, so every embedded operation stays executable.
* Rust panics (`unimplemented!()`, `Option::unwrap` on `None`,
  `assert_eq!` failure) are modelled as a distinguished `panic` outcome or
  as `Option.none`, never silently dropped.
-/

namespace LastPass

/-- Byte list of an ASCII string literal (all literals used here are ASCII,
so these are exactly the string's UTF-8 bytes). -/
def ascii (s : String) : List Nat := s.data.map Char.toNat

/-- Big-endian `u32` read of the first four bytes of a buffer, as in
`byteorder::BigEndian::read_u32`. -/
def readU32BE : List Nat → Nat
  | b0 :: b1 :: b2 :: b3 :: _ => ((b0 * 256 + b1) * 256 + b2) * 256 + b3
  | _ => 0

/-- Continuation byte test for UTF-8 validation. -/
def isCont (b : Nat) : Bool := decide (0x80 ≤ b ∧ b ≤ 0xBF)

/-- Class of a UTF-8 leading byte, following the table used by Rust's
`core::str::from_utf8`: ASCII, 2-byte lead, the special 3-byte leads `E0`
and `ED`, other 3-byte leads, the special 4-byte leads `F0` and `F4`,
other 4-byte leads, or invalid. -/
inductive Utf8Class where
  | ascii
  | two
  | threeE0
  | three
  | threeED
  | fourF0
  | four
  | fourF4
  | bad
deriving DecidableEq, Repr

/-- Classify a UTF-8 leading byte. -/
def utf8Class (b : Nat) : Utf8Class :=
  if b ≤ 0x7F then .ascii
  else if 0xC2 ≤ b ∧ b ≤ 0xDF then .two
  else if b = 0xE0 then .threeE0
  else if (0xE1 ≤ b ∧ b ≤ 0xEC) ∨ b = 0xEE ∨ b = 0xEF then .three
  else if b = 0xED then .threeED
  else if b = 0xF0 then .fourF0
  else if 0xF1 ≤ b ∧ b ≤ 0xF3 then .four
  else if b = 0xF4 then .fourF4
  else .bad

/-- Inclusive byte range test. -/
def inRange (lo hi b : Nat) : Bool := decide (lo ≤ b ∧ b ≤ hi)

/-- Consume the continuation bytes demanded by a leading byte's class,
returning the remainder of the sequence, or `none` when the continuation
bytes are missing or out of range. -/
def utf8Consume (c : Utf8Class) (rest : List Nat) : Option (List Nat) :=
  match c with
  | .ascii => some rest
  | .two =>
    match rest with
    | c1 :: rest2 => if isCont c1 then some rest2 else none
    | [] => none
  | .threeE0 =>
    match rest with
    | c1 :: c2 :: rest2 =>
      if inRange 0xA0 0xBF c1 && isCont c2 then some rest2 else none
    | _ => none
  | .three =>
    match rest with
    | c1 :: c2 :: rest2 =>
      if isCont c1 && isCont c2 then some rest2 else none
    | _ => none
  | .threeED =>
    match rest with
    | c1 :: c2 :: rest2 =>
      if inRange 0x80 0x9F c1 && isCont c2 then some rest2 else none
    | _ => none
  | .fourF0 =>
    match rest with
    | c1 :: c2 :: c3 :: rest2 =>
      if inRange 0x90 0xBF c1 && isCont c2 && isCont c3 then some rest2
      else none
    | _ => none
  | .four =>
    match rest with
    | c1 :: c2 :: c3 :: rest2 =>
      if isCont c1 && isCont c2 && isCont c3 then some rest2 else none
    | _ => none
  | .fourF4 =>
    match rest with
    | c1 :: c2 :: c3 :: rest2 =>
      if inRange 0x80 0x8F c1 && isCont c2 && isCont c3 then some rest2
      else none
    | _ => none
  | .bad => none

/-- Structural worker for `utf8Valid`: the fuel (at least the list length)
bounds the number of encoded characters, keeping the recursion
kernel-reducible.  Each step consumes at least one byte, so fuel equal to
the list length never runs out. -/
def utf8ValidAux : Nat → List Nat → Bool
  | _, [] => true
  | 0, _ :: _ => false
  | fuel + 1, b :: rest =>
    match utf8Consume (utf8Class b) rest with
    | some rest2 => utf8ValidAux fuel rest2
    | none => false

/-- UTF-8 validity of a byte list, following the table used by Rust's
`core::str::from_utf8` (continuation counts and the restricted
continuation ranges after `E0`, `ED`, `F0` and `F4`). -/
def utf8Valid (l : List Nat) : Bool := utf8ValidAux l.length l

/-- ASCII decimal digit test. -/
def isDigit (b : Nat) : Bool := decide (48 ≤ b ∧ b ≤ 57)

/-- Value of a digit string (callers check digit-ness first). -/
def digitsToNat (l : List Nat) : Nat :=
  l.foldl (fun acc b => acc * 10 + (b - 48)) 0

/-- Rust `u64::from_str`: optional leading `+`, then one or more decimal
digits, rejecting values that overflow 64 bits. -/
def parseU64 (s : List Nat) : Option Nat :=
  let digits := match s with
    | 43 :: rest => rest
    | _ => s
  if !digits.isEmpty && digits.all isDigit &&
      decide (digitsToNat digits < 2 ^ 64) then
    some (digitsToNat digits)
  else none

/-- Hex digit value as accepted by the `hex` crate (both cases). -/
def hexDigitVal (b : Nat) : Option Nat :=
  if 48 ≤ b ∧ b ≤ 57 then some (b - 48)
  else if 97 ≤ b ∧ b ≤ 102 then some (b - 87)
  else if 65 ≤ b ∧ b ≤ 70 then some (b - 55)
  else none

/-- Model of `hex::decode`: even number of hex digits, two digits per byte. -/
def hexDecode : List Nat → Option (List Nat)
  | [] => some []
  | [_] => none
  | h :: l :: rest =>
    match hexDigitVal h, hexDigitVal l, hexDecode rest with
    | some hv, some lv, some tail => some ((hv * 16 + lv) :: tail)
    | _, _, _ => none

/-- Model of `DecryptionError` (src/keys/mod.rs). -/
inductive DecryptionError where
  | InvalidKey
  | DecryptionFailed
  | Base64
  | Hex
  | RsaDecryptionFailed
deriving DecidableEq, Repr

/-- Model of `VaultParseError` (src/parser.rs). The boxed `dyn Error`
payload of `BadParse` and the `Utf8Error` payload of `ChunkShouldBeString`
are opaque to this development and are dropped. -/
inductive VaultParseError where
  | ChunkShouldBeString (name : List Nat)
  | MissingField (name : String)
  | UnexpectedEOF (expectedField : String)
  | UnableToDecrypt (field : String) (inner : DecryptionError)
  | BadParse (field : String)
deriving DecidableEq, Repr

/-- Abstracted collaborators threaded through the record decoders: the
symmetric `DecryptionKey::decrypt` closure over a fixed key, and the
external `url::Url::parse` (the `url` crate has no source in this
repository, so its behaviour is a parameter). -/
structure ParseCtx where
  decrypt : List Nat → Except DecryptionError (List Nat)
  urlParse : List Nat → Option (List Nat)

instance {ε α : Type} [DecidableEq ε] [DecidableEq α] :
    DecidableEq (Except ε α) := fun a b =>
  match a, b with
  | .ok x, .ok y =>
    if h : x = y then .isTrue (by rw [h]) else .isFalse (by simp [h])
  | .ok _, .error _ => .isFalse (by simp)
  | .error _, .ok _ => .isFalse (by simp)
  | .error x, .error y =>
    if h : x = y then .isTrue (by rw [h]) else .isFalse (by simp [h])

/-- Model of `read_item`: split a 4-byte big-endian length prefix and that
many payload bytes off the front of the buffer. -/
def read_item (buffer : List Nat) (field : String) :
    Except VaultParseError (List Nat × List Nat) :=
  if buffer.length < 4 then .error (.UnexpectedEOF field)
  else
    let fieldLength := readU32BE (buffer.take 4)
    let rest := buffer.drop 4
    if rest.length < fieldLength then .error (.UnexpectedEOF field)
    else .ok (rest.take fieldLength, rest.drop fieldLength)

/-- Model of `read_str_item`: `read_item` plus UTF-8 validation
(`std::str::from_utf8`); an invalid item is a `BadParse` on that field. -/
def read_str_item (buffer : List Nat) (field : String) :
    Except VaultParseError (List Nat × List Nat) :=
  match read_item buffer field with
  | .error e => .error e
  | .ok (item, rest) =>
    if utf8Valid item then .ok (item, rest) else .error (.BadParse field)

/-- Model of `skip`: read an item and discard it. -/
def skip (buffer : List Nat) (field : String) :
    Except VaultParseError (List Nat) :=
  match read_item buffer field with
  | .error e => .error e
  | .ok (_, rest) => .ok rest

/-- Model of `read_bool`: the decoded string equals `"1"`. -/
def read_bool (buffer : List Nat) (field : String) :
    Except VaultParseError (Bool × List Nat) :=
  match read_str_item buffer field with
  | .error e => .error e
  | .ok (raw, rest) => .ok (decide (raw = ascii "1"), rest)

/-- Model of `read_parsed::<Id>`: `Id::from_str` is infallible, so this is
`read_str_item` with the string kept as the identifier. -/
def read_parsed_id (buffer : List Nat) (field : String) :
    Except VaultParseError (List Nat × List Nat) :=
  read_str_item buffer field

/-- Model of `read_parsed::<u64>` (used for `attachment.size`). -/
def read_parsed_u64 (buffer : List Nat) (field : String) :
    Except VaultParseError (Nat × List Nat) :=
  match read_str_item buffer field with
  | .error e => .error e
  | .ok (raw, rest) =>
    match parseU64 raw with
    | some n => .ok (n, rest)
    | none => .error (.BadParse field)

/-- Model of `read_encrypted`: read an item, decrypt it with the key, then
UTF-8 decode the plaintext. -/
def read_encrypted (ctx : ParseCtx) (buffer : List Nat) (field : String) :
    Except VaultParseError (List Nat × List Nat) :=
  match read_item buffer field with
  | .error e => .error e
  | .ok (ciphertext, rest) =>
    match ctx.decrypt ciphertext with
    | .error e => .error (.UnableToDecrypt field e)
    | .ok decrypted =>
      if utf8Valid decrypted then .ok (decrypted, rest)
      else .error (.BadParse field)

/-- Model of `read_hex`: read a string item and hex-decode it. -/
def read_hex (buffer : List Nat) (field : String) :
    Except VaultParseError (List Nat × List Nat) :=
  match read_str_item buffer field with
  | .error e => .error e
  | .ok (raw, rest) =>
    match hexDecode raw with
    | some bytes => .ok (bytes, rest)
    | none => .error (.BadParse field)

/-- Model of `read_hex_string`: `read_hex` plus UTF-8 decoding. -/
def read_hex_string (buffer : List Nat) (field : String) :
    Except VaultParseError (List Nat × List Nat) :=
  match read_hex buffer field with
  | .error e => .error e
  | .ok (bytes, rest) =>
    if utf8Valid bytes then .ok (bytes, rest) else .error (.BadParse field)

/-- Model of `Attachment` (src/attachment.rs); `Id` values are the backing
strings. -/
structure Attachment where
  id : List Nat
  parent : List Nat
  mime_type : List Nat
  storage_key : List Nat
  size : Nat
  encrypted_filename : List Nat
deriving DecidableEq, Repr

/-- Model of `Field` (src/account.rs). -/
structure Field where
  field_type : List Nat
  name : List Nat
  value : List Nat
  checked : Bool
deriving DecidableEq, Repr

/-- Model of `Account` (src/account.rs, as constructed by `parse_account`);
`url` holds the result of the abstracted `url::Url::parse`. -/
structure Account where
  id : List Nat
  name : List Nat
  group : List Nat
  url : List Nat
  note : List Nat
  note_type : List Nat
  favourite : Bool
  username : List Nat
  password : List Nat
  password_protected : Bool
  encrypted_attachment_key : List Nat
  attachment_present : Bool
  last_touch : List Nat
  last_modified : List Nat
  attachments : List Attachment
  fields : List Field
deriving DecidableEq, Repr

/-- Model of `App` (src/app.rs). -/
structure App where
  id : List Nat
  app_name : List Nat
  extra : List Nat
  name : List Nat
  group : List Nat
  last_touch : List Nat
  password_protected : Bool
  favourite : Bool
  window_title : List Nat
  window_info : List Nat
  exe_version : List Nat
  autologin : Bool
  warn_version : List Nat
  exe_hash : List Nat
deriving DecidableEq, Repr

/-- Model of `Share` (src/share.rs); never constructed, since
`parse_share` is an `unimplemented!()` stub. -/
structure Share where
  id : List Nat
  name : List Nat
  key : List Nat
  readonly : Bool
deriving DecidableEq, Repr

/-- Result of a parsing step that may return a value, fail with a typed
error, or abort the process (a Rust panic). -/
inductive PResult (α : Type) where
  | ok (value : α)
  | err (e : VaultParseError)
  | panic
deriving DecidableEq, Repr

/-- Model of `parse_attachment` (src/parser.rs). -/
def parse_attachment (buffer : List Nat) :
    Except VaultParseError Attachment :=
  match read_parsed_id buffer "attachment.id" with
  | .error e => .error e
  | .ok (id, buffer) =>
  match read_parsed_id buffer "attachment.parent" with
  | .error e => .error e
  | .ok (parent, buffer) =>
  match read_str_item buffer "attachment.mimetype" with
  | .error e => .error e
  | .ok (mime_type, buffer) =>
  match read_str_item buffer "attachment.storagekey" with
  | .error e => .error e
  | .ok (storage_key, buffer) =>
  match read_parsed_u64 buffer "attachment.size" with
  | .error e => .error e
  | .ok (size, buffer) =>
  match read_str_item buffer "attachment.filename" with
  | .error e => .error e
  | .ok (encrypted_filename, _buffer) =>
    .ok { id := id, parent := parent, mime_type := mime_type,
          storage_key := storage_key, size := size,
          encrypted_filename := encrypted_filename }

/-- Field types whose value sub-field is decrypted by
`parse_account_field`. -/
def sensitiveFieldTypes : List (List Nat) :=
  [ascii "email", ascii "tel", ascii "text", ascii "password",
   ascii "textarea"]

/-- Model of `parse_account_field` (src/parser.rs). -/
def parse_account_field (ctx : ParseCtx) (buffer : List Nat) :
    Except VaultParseError Field :=
  match read_parsed_id buffer "account.field.name" with
  | .error e => .error e
  | .ok (name, buffer) =>
  match read_str_item buffer "account.field.type" with
  | .error e => .error e
  | .ok (field_type, buffer) =>
  match (if field_type ∈ sensitiveFieldTypes then
           read_encrypted ctx buffer "account.field.value"
         else
           read_str_item buffer "account.field.value") with
  | .error e => .error e
  | .ok (value, buffer) =>
  match read_bool buffer "account.field.checked" with
  | .error e => .error e
  | .ok (checked, _buffer) =>
    .ok { field_type := field_type, name := name, value := value,
          checked := checked }

/-- Model of `parse_account` (src/parser.rs): the straight-line sequence of
sub-field reads, then assembly of the `Account` (URL parsed last, via the
abstracted `url::Url::parse`; a failure there is `BadParse "account.url"`). -/
def parse_account (ctx : ParseCtx) (buffer : List Nat) :
    Except VaultParseError Account :=
  match read_parsed_id buffer "account.id" with
  | .error e => .error e
  | .ok (id, buffer) =>
  match read_encrypted ctx buffer "account.name" with
  | .error e => .error e
  | .ok (name, buffer) =>
  match read_encrypted ctx buffer "account.group" with
  | .error e => .error e
  | .ok (group, buffer) =>
  match read_hex_string buffer "account.url" with
  | .error e => .error e
  | .ok (url, buffer) =>
  match read_encrypted ctx buffer "account.note" with
  | .error e => .error e
  | .ok (note, buffer) =>
  match read_bool buffer "account.fav" with
  | .error e => .error e
  | .ok (fav, buffer) =>
  match skip buffer "account.sharedfromaid" with
  | .error e => .error e
  | .ok buffer =>
  match read_encrypted ctx buffer "account.username" with
  | .error e => .error e
  | .ok (username, buffer) =>
  match read_encrypted ctx buffer "account.password" with
  | .error e => .error e
  | .ok (password, buffer) =>
  match read_bool buffer "account.pwprotect" with
  | .error e => .error e
  | .ok (password_protected, buffer) =>
  match skip buffer "account.genpw" with
  | .error e => .error e
  | .ok buffer =>
  match skip buffer "account.sn" with
  | .error e => .error e
  | .ok buffer =>
  match read_str_item buffer "account.last_touch" with
  | .error e => .error e
  | .ok (last_touch, buffer) =>
  match skip buffer "account.autologin" with
  | .error e => .error e
  | .ok buffer =>
  match skip buffer "account.never_autofill" with
  | .error e => .error e
  | .ok buffer =>
  match skip buffer "account.realm_data" with
  | .error e => .error e
  | .ok buffer =>
  match skip buffer "account.fiid" with
  | .error e => .error e
  | .ok buffer =>
  match skip buffer "account.custom_js" with
  | .error e => .error e
  | .ok buffer =>
  match skip buffer "account.submit_id" with
  | .error e => .error e
  | .ok buffer =>
  match skip buffer "account.captcha_id" with
  | .error e => .error e
  | .ok buffer =>
  match skip buffer "account.urid" with
  | .error e => .error e
  | .ok buffer =>
  match skip buffer "account.basic_auth" with
  | .error e => .error e
  | .ok buffer =>
  match skip buffer "account.method" with
  | .error e => .error e
  | .ok buffer =>
  match skip buffer "account.action" with
  | .error e => .error e
  | .ok buffer =>
  match skip buffer "account.groupid" with
  | .error e => .error e
  | .ok buffer =>
  match skip buffer "account.deleted" with
  | .error e => .error e
  | .ok buffer =>
  match read_str_item buffer "account.attachkey_encrypted" with
  | .error e => .error e
  | .ok (attachkey_encrypted, buffer) =>
  match read_bool buffer "account.attachpresent" with
  | .error e => .error e
  | .ok (attachment_present, buffer) =>
  match skip buffer "account.individualshare" with
  | .error e => .error e
  | .ok buffer =>
  match read_str_item buffer "account.notetype" with
  | .error e => .error e
  | .ok (note_type, buffer) =>
  match skip buffer "account.noalert" with
  | .error e => .error e
  | .ok buffer =>
  match read_str_item buffer "account.last_modified_gmt" with
  | .error e => .error e
  | .ok (last_modified_gmt, buffer) =>
  match skip buffer "account.hasbeenshared" with
  | .error e => .error e
  | .ok buffer =>
  match skip buffer "account.last_pwchange_gmt" with
  | .error e => .error e
  | .ok buffer =>
  match skip buffer "account.created_gmt" with
  | .error e => .error e
  | .ok buffer =>
  match skip buffer "account.vulnerable" with
  | .error e => .error e
  | .ok _buffer =>
  match ctx.urlParse url with
  | none => .error (.BadParse "account.url")
  | some parsedUrl =>
    .ok { id := id, name := name, username := username,
          password := password, password_protected := password_protected,
          note := note, note_type := note_type, last_touch := last_touch,
          encrypted_attachment_key := attachkey_encrypted,
          attachment_present := attachment_present, favourite := fav,
          group := group, last_modified := last_modified_gmt,
          url := parsedUrl, attachments := [], fields := [] }

/-- Model of `parse_app` (src/parser.rs). -/
def parse_app (ctx : ParseCtx) (buffer : List Nat) :
    Except VaultParseError App :=
  match read_parsed_id buffer "app.id" with
  | .error e => .error e
  | .ok (id, buffer) =>
  match read_hex_string buffer "app.appname" with
  | .error e => .error e
  | .ok (app_name, buffer) =>
  match read_encrypted ctx buffer "app.extra" with
  | .error e => .error e
  | .ok (extra, buffer) =>
  match read_encrypted ctx buffer "app.appname" with
  | .error e => .error e
  | .ok (name, buffer) =>
  match read_encrypted ctx buffer "app.group" with
  | .error e => .error e
  | .ok (group, buffer) =>
  match read_str_item buffer "app.last_touch" with
  | .error e => .error e
  | .ok (last_touch, buffer) =>
  match skip buffer "app.fiid" with
  | .error e => .error e
  | .ok buffer =>
  match read_bool buffer "app.pwprotect" with
  | .error e => .error e
  | .ok (password_protected, buffer) =>
  match read_bool buffer "app.fav" with
  | .error e => .error e
  | .ok (favourite, buffer) =>
  match read_str_item buffer "app.wintitle" with
  | .error e => .error e
  | .ok (window_title, buffer) =>
  match read_str_item buffer "app.wininfo" with
  | .error e => .error e
  | .ok (window_info, buffer) =>
  match read_str_item buffer "app.exeversion" with
  | .error e => .error e
  | .ok (exe_version, buffer) =>
  match read_bool buffer "app.autologin" with
  | .error e => .error e
  | .ok (autologin, buffer) =>
  match read_str_item buffer "app.warnversion" with
  | .error e => .error e
  | .ok (warn_version, buffer) =>
  match read_str_item buffer "app.exehash" with
  | .error e => .error e
  | .ok (exe_hash, _buffer) =>
    .ok { id := id, app_name := app_name, extra := extra, name := name,
          group := group, last_touch := last_touch,
          password_protected := password_protected, favourite := favourite,
          window_title := window_title, window_info := window_info,
          exe_version := exe_version, autologin := autologin,
          warn_version := warn_version, exe_hash := exe_hash }

/-- Model of `parse_share` (src/parser.rs): the body is an unconditional
`unimplemented!()`, i.e. a process abort. -/
def parse_share (_buffer : List Nat) : PResult Share := .panic

/-- Model of `Chunk` (src/parser.rs): a 4-byte tag and its payload. -/
structure Chunk where
  name : List Nat
  data : List Nat
deriving DecidableEq, Repr

/-- Model of `Chunk::parse`: read a 4-byte tag, a 4-byte big-endian length,
and that many payload bytes; any shortfall is "no chunk" (`none`), the
normal end-of-stream condition. -/
def Chunk.parse (buffer : List Nat) : Option (Chunk × List Nat) :=
  if buffer.length < 4 then none
  else
    let name := buffer.take 4
    let buffer := buffer.drop 4
    if buffer.length < 4 then none
    else
      let numBytes := readU32BE (buffer.take 4)
      let buffer := buffer.drop 4
      if buffer.length < numBytes then none
      else some (⟨name, buffer.take numBytes⟩, buffer.drop numBytes)

/-- Every successful `Chunk::parse` consumes the 4-byte tag, the 4-byte
length, and the payload: at least 8 bytes. -/
theorem chunkParse_consumes (buffer : List Nat) (c : Chunk)
    (rest : List Nat) (h : Chunk.parse buffer = some (c, rest)) :
    rest.length + 8 + c.data.length = buffer.length := by
  simp only [Chunk.parse] at h
  split at h
  · exact absurd h (by simp)
  next h1 =>
    split at h
    · exact absurd h (by simp)
    next h2 =>
      split at h
      · exact absurd h (by simp)
      next h3 =>
        simp only [Option.some.injEq, Prod.mk.injEq] at h
        obtain ⟨hc, hrest⟩ := h
        subst hrest
        subst hc
        simp only [List.length_drop, List.length_take] at h1 h2 h3 ⊢
        omega

/-- Parser state accumulated while walking the chunk stream
(struct `Parser` in src/parser.rs; the Rust field `local` is `is_local`
here because `local` is reserved in Lean). -/
structure Parser where
  vault_version : Option Nat
  accounts : List Account
  shares : List Share
  app : Option App
  is_local : Bool
deriving DecidableEq, Repr

/-- Model of `Parser::new` / `Parser::default`. -/
def Parser.init : Parser :=
  { vault_version := none, accounts := [], shares := [], app := none,
    is_local := false }

/-- Helper for the `ATTA` arm: `iter_mut().find(...)` locates the first
account whose id equals the attachment's parent id and pushes the
attachment there; `none` means no parent was found. -/
def addAttachmentToParent (accounts : List Account) (att : Attachment) :
    Option (List Account) :=
  match accounts with
  | [] => none
  | a :: rest =>
    if a.id = att.parent then
      some ({ a with attachments := a.attachments ++ [att] } :: rest)
    else
      match addAttachmentToParent rest att with
      | some rest2 => some (a :: rest2)
      | none => none

/-- Helper for the `ACFL`/`ACOF` arms: `accounts.last_mut()` pushes a field
onto the most recently appended account; `none` means there is none. -/
def addFieldToLast (accounts : List Account) (f : Field) :
    Option (List Account) :=
  match accounts with
  | [] => none
  | [a] => some [{ a with fields := a.fields ++ [f] }]
  | a :: rest =>
    match addFieldToLast rest f with
    | some rest2 => some (a :: rest2)
    | none => none

/-- Model of `Parser::handle_chunk` (src/parser.rs), dispatching on the
chunk tag.  The two `unimplemented!()` arms (attachment with no matching
parent account, field with no account yet) and the `parse_share` stub
surface as `PResult.panic`. -/
def handle_chunk (ctx : ParseCtx) (p : Parser) (chunk : Chunk) :
    PResult Parser :=
  if chunk.name = ascii "LPAV" then
    if utf8Valid chunk.data then
      .ok { p with vault_version := parseU64 chunk.data }
    else
      .err (.ChunkShouldBeString chunk.name)
  else if chunk.name = ascii "ACCT" then
    match parse_account ctx chunk.data with
    | .error e => .err e
    | .ok acct => .ok { p with accounts := p.accounts ++ [acct] }
  else if chunk.name = ascii "ATTA" then
    match parse_attachment chunk.data with
    | .error e => .err e
    | .ok att =>
      match addAttachmentToParent p.accounts att with
      | some accounts => .ok { p with accounts := accounts }
      | none => .panic
  else if chunk.name = ascii "LOCL" then
    .ok { p with is_local := true }
  else if chunk.name = ascii "SHAR" then
    match parse_share chunk.data with
    | .ok s => .ok { p with shares := p.shares ++ [s] }
    | .err e => .err e
    | .panic => .panic
  else if chunk.name = ascii "AACT" then
    match parse_app ctx chunk.data with
    | .error e => .err e
    | .ok app => .ok { p with app := some app }
  else if chunk.name = ascii "ACFL" ∨ chunk.name = ascii "ACOF" then
    match parse_account_field ctx chunk.data with
    | .error e => .err e
    | .ok f =>
      match addFieldToLast p.accounts f with
      | some accounts => .ok { p with accounts := accounts }
      | none => .panic
  else
    .ok p

/-- Model of `Parser::parse`: drive `Chunk::parse` over the buffer,
handling each chunk, until no chunk remains. -/
def Parser.run (ctx : ParseCtx) (p : Parser) (buffer : List Nat) :
    PResult Parser :=
  match h : Chunk.parse buffer with
  | none => .ok p
  | some (chunk, rest) =>
    match handle_chunk ctx p chunk with
    | .ok p2 => Parser.run ctx p2 rest
    | .err e => .err e
    | .panic => .panic
termination_by buffer.length
decreasing_by
  have := chunkParse_consumes buffer chunk rest h
  omega

/-- Model of `Vault` (src/vault.rs); the Rust field `local` is `is_local`. -/
structure Vault where
  version : Nat
  is_local : Bool
  accounts : List Account
deriving DecidableEq, Repr

/-- Model of the top-level `parse` (src/parser.rs): run the parser over the
whole buffer, then require `vault_version` to have been set. -/
def parse (ctx : ParseCtx) (raw : List Nat) : PResult Vault :=
  match Parser.run ctx Parser.init raw with
  | .err e => .err e
  | .panic => .panic
  | .ok p =>
    match p.vault_version with
    | some version =>
      .ok { version := version, is_local := p.is_local,
            accounts := p.accounts }
    | none => .err (.MissingField "vault_version")

/-- Nat-wise xor of two equal-length byte strings. -/
def xorBytes (a b : List Nat) : List Nat := List.zipWith (· ^^^ ·) a b

/-- PKCS#7 unpadding as in the `block-padding` crate: the last byte `n`
must be non-zero, at most the buffer length, and the last `n` bytes must
all equal `n`. -/
def pkcs7Unpad (data : List Nat) : Option (List Nat) :=
  match data.getLast? with
  | none => none
  | some n =>
    if 1 ≤ n ∧ n ≤ data.length ∧
        (data.drop (data.length - n)).all (· = n) then
      some (data.take (data.length - n))
    else none

/-- Structural worker for `chunks16`; the fuel (the list length) bounds the
number of 16-byte groups, keeping the recursion kernel-reducible. -/
def chunks16Aux : Nat → List Nat → List (List Nat)
  | _, [] => []
  | 0, _ :: _ => []
  | fuel + 1, b :: l => (b :: l).take 16 :: chunks16Aux fuel ((b :: l).drop 16)

/-- Split a buffer into 16-byte cipher blocks (callers ensure the length is
a multiple of 16). -/
def chunks16 (l : List Nat) : List (List Nat) := chunks16Aux l.length l

/-- CBC block chaining for decryption: each plaintext block is the block
decryption xored with the previous ciphertext block (the IV first). -/
def cbcChain (aesDec : List Nat → List Nat) (iv : List Nat) :
    List (List Nat) → List (List Nat)
  | [] => []
  | blk :: rest => xorBytes (aesDec blk) iv :: cbcChain aesDec blk rest

/-- Model of `Cbc::<Aes256, Pkcs7>::decrypt_vec`: the ciphertext must be a
whole number of 16-byte blocks, and the result must unpad; `aesDec` is the
external AES-256 single-block decryption, keyed. -/
def cbcDecryptVec (aesDec : List Nat → List Nat) (iv ct : List Nat) :
    Except DecryptionError (List Nat) :=
  if ct.length % 16 = 0 then
    match pkcs7Unpad (cbcChain aesDec iv (chunks16 ct)).flatten with
    | some msg => .ok msg
    | none => .error .DecryptionFailed
  else .error .DecryptionFailed

/-- Model of `Ecb::<Aes256, Pkcs7>::decrypt_vec`: blockwise decryption with
no chaining, then unpadding. -/
def ecbDecryptVec (aesDec : List Nat → List Nat) (ct : List Nat) :
    Except DecryptionError (List Nat) :=
  if ct.length % 16 = 0 then
    match pkcs7Unpad ((chunks16 ct).map aesDec).flatten with
    | some msg => .ok msg
    | none => .error .DecryptionFailed
  else .error .DecryptionFailed

/-- Model of `uses_cbc` (src/keys/decryption_key.rs): length at least 33,
length congruent to 1 mod 16, and the buffer starts with `'!'` (byte 33). -/
def uses_cbc (ciphertext : List Nat) : Bool :=
  decide (33 ≤ ciphertext.length ∧ ciphertext.length % 16 = 1 ∧
    ciphertext.take 1 = [33])

/-- Model of `DecryptionKey::decrypt`: empty input short-circuits; CBC mode
uses bytes `[1..17)` as the IV and bytes `[17..)` as ciphertext, otherwise
the whole buffer is ECB ciphertext.  The AES-256 block decryption under the
fixed 32-byte key is the parameter `aesDec` (the `aes` crate is external);
`new_from_slices` cannot fail here because the key is a fixed 32-byte array
and the IV slice always has length 16. -/
def DecryptionKey.decrypt (aesDec : List Nat → List Nat)
    (ciphertext : List Nat) : Except DecryptionError (List Nat) :=
  if ciphertext.isEmpty then .ok []
  else if uses_cbc ciphertext then
    cbcDecryptVec aesDec ((ciphertext.drop 1).take 16) (ciphertext.drop 17)
  else
    ecbDecryptVec aesDec ciphertext

/-- Base64 value of one standard-alphabet symbol. -/
def b64Val (c : Nat) : Option Nat :=
  if 65 ≤ c ∧ c ≤ 90 then some (c - 65)
  else if 97 ≤ c ∧ c ≤ 122 then some (c - 71)
  else if 48 ≤ c ∧ c ≤ 57 then some (c + 4)
  else if c = 43 then some 62
  else if c = 47 then some 63
  else none

/-- Decode a padding-stripped base64 symbol stream; a trailing group of one
symbol is invalid. -/
def b64Core : List Nat → Option (List Nat)
  | [] => some []
  | [_] => none
  | [c1, c2] =>
    match b64Val c1, b64Val c2 with
    | some v1, some v2 => some [v1 * 4 + v2 / 16]
    | _, _ => none
  | [c1, c2, c3] =>
    match b64Val c1, b64Val c2, b64Val c3 with
    | some v1, some v2, some v3 =>
      some [v1 * 4 + v2 / 16, v2 % 16 * 16 + v3 / 4]
    | _, _, _ => none
  | c1 :: c2 :: c3 :: c4 :: rest =>
    match b64Val c1, b64Val c2, b64Val c3, b64Val c4, b64Core rest with
    | some v1, some v2, some v3, some v4, some tail =>
      some ((v1 * 4 + v2 / 16) :: (v2 % 16 * 16 + v3 / 4) ::
            (v3 % 4 * 64 + v4) :: tail)
    | _, _, _, _, _ => none

/-- Strip up to two trailing `'='` padding bytes. -/
def stripPad (s : List Nat) : List Nat :=
  match s.reverse with
  | 61 :: 61 :: rest => rest.reverse
  | 61 :: rest => rest.reverse
  | _ => s

/-- Model of `base64::decode` with the standard alphabet (the `base64`
crate is external; this captures the accepted alphabet, the padding, and
the invalid-trailing-symbol failure). -/
def base64Decode (s : List Nat) : Option (List Nat) :=
  b64Core (stripPad s)

/-- Result of a decryption step that may return plaintext, fail with a
typed error, or abort the process (a Rust panic). -/
inductive DOut where
  | ok (bytes : List Nat)
  | err (e : DecryptionError)
  | panic
deriving DecidableEq, Repr

/-- Index of the first `'|'` (byte 124), as `str::find("|")`. -/
def findPipe : List Nat → Option Nat
  | [] => none
  | b :: rest =>
    if b = 124 then some 0 else (findPipe rest).map (· + 1)

/-- Model of `cipher_unbase64` (src/keys/decryption_key.rs): a string not
starting with `'!'` is plain base64; otherwise the source computes
`ciphertext.find("|").unwrap()` — an abort when there is no `'|'` — and
reassembles `'!' ‖ base64(iv) ‖ base64(rest)`. -/
def cipher_unbase64 (ciphertext : List Nat) : DOut :=
  if ciphertext.take 1 ≠ [33] then
    match base64Decode ciphertext with
    | some bytes => .ok bytes
    | none => .err .Base64
  else
    match findPipe ciphertext with
    | none => .panic
    | some pipe =>
      let iv := (ciphertext.drop 1).take (pipe - 1)
      let rest := ciphertext.drop (pipe + 1)
      match base64Decode iv, base64Decode rest with
      | some ivBytes, some restBytes => .ok (33 :: (ivBytes ++ restBytes))
      | _, _ => .err .Base64

/-- Model of `DecryptionKey::decrypt_base64`: undo the bang/pipe encoding,
then decrypt. -/
def DecryptionKey.decrypt_base64 (aesDec : List Nat → List Nat)
    (ciphertext : List Nat) : DOut :=
  match cipher_unbase64 ciphertext with
  | .panic => .panic
  | .err e => .err e
  | .ok decoded =>
    match DecryptionKey.decrypt aesDec decoded with
    | .ok plaintext => .ok plaintext
    | .error e => .err e

/-- Reduce modulo 2^32 (the word size of SHA-256 arithmetic). -/
def w32 (n : Nat) : Nat := n % 4294967296

/-- Right rotation of a 32-bit word. -/
def rotr32 (n x : Nat) : Nat := w32 ((x >>> n) ||| (x <<< (32 - n)))

/-- SHA-256 choose function. -/
def sha2Ch (x y z : Nat) : Nat := (x &&& y) ^^^ ((x ^^^ 4294967295) &&& z)

/-- SHA-256 majority function. -/
def sha2Maj (x y z : Nat) : Nat := (x &&& y) ^^^ (x &&& z) ^^^ (y &&& z)

/-- SHA-256 big sigma 0. -/
def bigSigma0 (x : Nat) : Nat := rotr32 2 x ^^^ rotr32 13 x ^^^ rotr32 22 x

/-- SHA-256 big sigma 1. -/
def bigSigma1 (x : Nat) : Nat := rotr32 6 x ^^^ rotr32 11 x ^^^ rotr32 25 x

/-- SHA-256 small sigma 0. -/
def smallSigma0 (x : Nat) : Nat := rotr32 7 x ^^^ rotr32 18 x ^^^ (x >>> 3)

/-- SHA-256 small sigma 1. -/
def smallSigma1 (x : Nat) : Nat := rotr32 17 x ^^^ rotr32 19 x ^^^ (x >>> 10)

/-- SHA-256 round constants. -/
def sha256K : List Nat :=
  [1116352408, 1899447441, 3049323471, 3921009573, 961987163,
   1508970993, 2453635748, 2870763221, 3624381080, 310598401,
   607225278, 1426881987, 1925078388, 2162078206, 2614888103,
   3248222580, 3835390401, 4022224774, 264347078, 604807628,
   770255983, 1249150122, 1555081692, 1996064986, 2554220882,
   2821834349, 2952996808, 3210313671, 3336571891, 3584528711,
   113926993, 338241895, 666307205, 773529912, 1294757372,
   1396182291, 1695183700, 1986661051, 2177026350, 2456956037,
   2730485921, 2820302411, 3259730800, 3345764771, 3516065817,
   3600352804, 4094571909, 275423344, 430227734, 506948616,
   659060556, 883997877, 958139571, 1322822218, 1537002063,
   1747873779, 1955562222, 2024104815, 2227730452, 2361852424,
   2428436474, 2756734187, 3204031479, 3329325298]

/-- Working state of the SHA-256 compression function. -/
structure Hash8 where
  h0 : Nat
  h1 : Nat
  h2 : Nat
  h3 : Nat
  h4 : Nat
  h5 : Nat
  h6 : Nat
  h7 : Nat
deriving DecidableEq, Repr

/-- SHA-256 initial hash value. -/
def sha256Init : Hash8 :=
  ⟨1779033703, 3144134277, 1013904242, 2773480762,
   1359893119, 2600822924, 528734635, 1541459225⟩

/-- Extend a 16-word message block to the 64-word schedule. -/
def buildW (block : List Nat) : List Nat :=
  (List.range 48).foldl
    (fun w i =>
      let t := i + 16
      w ++ [w32 (smallSigma1 (w.getD (t - 2) 0) + w.getD (t - 7) 0 +
                 smallSigma0 (w.getD (t - 15) 0) + w.getD (t - 16) 0)])
    block

/-- One SHA-256 round. -/
def sha2Round (st : Hash8) (k w : Nat) : Hash8 :=
  let t1 := w32 (st.h7 + bigSigma1 st.h4 + sha2Ch st.h4 st.h5 st.h6 + k + w)
  let t2 := w32 (bigSigma0 st.h0 + sha2Maj st.h0 st.h1 st.h2)
  ⟨w32 (t1 + t2), st.h0, st.h1, st.h2, w32 (st.h3 + t1),
   st.h4, st.h5, st.h6⟩

/-- SHA-256 compression of one 16-word block into the running state. -/
def compressBlock (st : Hash8) (block : List Nat) : Hash8 :=
  let w := buildW block
  let e := (sha256K.zip w).foldl (fun s kw => sha2Round s kw.1 kw.2) st
  ⟨w32 (st.h0 + e.h0), w32 (st.h1 + e.h1), w32 (st.h2 + e.h2),
   w32 (st.h3 + e.h3), w32 (st.h4 + e.h4), w32 (st.h5 + e.h5),
   w32 (st.h6 + e.h6), w32 (st.h7 + e.h7)⟩

/-- Big-endian 8-byte encoding of a length in bits. -/
def be64 (n : Nat) : List Nat :=
  [n / 2 ^ 56 % 256, n / 2 ^ 48 % 256, n / 2 ^ 40 % 256, n / 2 ^ 32 % 256,
   n / 2 ^ 24 % 256, n / 2 ^ 16 % 256, n / 2 ^ 8 % 256, n % 256]

/-- SHA-256 padding: `0x80`, zeros, then the 64-bit big-endian bit length,
to a multiple of 64 bytes. -/
def sha256Pad (msg : List Nat) : List Nat :=
  let len := msg.length
  let padZeros := (64 - (len + 9) % 64) % 64
  msg ++ [0x80] ++ List.replicate padZeros 0 ++ be64 (len * 8)

/-- Group a byte list into big-endian 32-bit words. -/
def bytesToWords : List Nat → List Nat
  | b0 :: b1 :: b2 :: b3 :: rest =>
    (((b0 * 256 + b1) * 256 + b2) * 256 + b3) :: bytesToWords rest
  | _ => []

/-- Structural worker for `toBlocks`; the fuel (the list length) bounds the
number of 16-word blocks, keeping the recursion kernel-reducible. -/
def toBlocksAux : Nat → List Nat → List (List Nat)
  | _, [] => []
  | 0, _ :: _ => []
  | fuel + 1, w :: ws => (w :: ws).take 16 :: toBlocksAux fuel ((w :: ws).drop 16)

/-- Group a word list into 16-word blocks. -/
def toBlocks (ws : List Nat) : List (List Nat) := toBlocksAux ws.length ws

/-- Big-endian 4-byte encoding of a 32-bit word. -/
def word32Bytes (n : Nat) : List Nat :=
  [n / 2 ^ 24 % 256, n / 2 ^ 16 % 256, n / 2 ^ 8 % 256, n % 256]

/-- SHA-256 of a byte string (the `sha2` crate's `Sha256`, reimplemented
from FIPS 180-4 so the embedding stays executable). -/
def sha256 (msg : List Nat) : List Nat :=
  let st := (toBlocks (bytesToWords (sha256Pad msg))).foldl
    compressBlock sha256Init
  word32Bytes st.h0 ++ word32Bytes st.h1 ++ word32Bytes st.h2 ++
  word32Bytes st.h3 ++ word32Bytes st.h4 ++ word32Bytes st.h5 ++
  word32Bytes st.h6 ++ word32Bytes st.h7

/-- HMAC-SHA256 (the `hmac` crate). -/
def hmacSha256 (key msg : List Nat) : List Nat :=
  let key := if 64 < key.length then sha256 key else key
  let key := key ++ List.replicate (64 - key.length) 0
  let ipad := key.map (fun b => b ^^^ 0x36)
  let opad := key.map (fun b => b ^^^ 0x5c)
  sha256 (opad ++ sha256 (ipad ++ msg))

/-- Iterated xor accumulation for PBKDF2. -/
def pbkdf2Iter (password u acc : List Nat) : Nat → List Nat
  | 0 => acc
  | m + 1 =>
    let u2 := hmacSha256 password u
    pbkdf2Iter password u2 (xorBytes acc u2) m

/-- PBKDF2-HMAC-SHA256 with a 32-byte (single-block) output, as the
`pbkdf2` crate is invoked by this repository. -/
def pbkdf2Sha256 (password salt : List Nat) (iterations : Nat) :
    List Nat :=
  let u1 := hmacSha256 password (salt ++ [0, 0, 0, 1])
  pbkdf2Iter password u1 u1 (iterations - 1)

/-- Lowercase hex digit byte of a nibble. -/
def hexDigitChar (n : Nat) : Nat := if n < 10 then 48 + n else 87 + n

/-- Model of `hex::encode` (lowercase): two hex digit bytes per input
byte. -/
def hexEncode : List Nat → List Nat
  | [] => []
  | b :: rest => hexDigitChar (b / 16) :: hexDigitChar (b % 16) ::
      hexEncode rest

/-- Model of `str::to_lowercase` restricted to ASCII (Unicode lowercasing
agrees with this on ASCII input, which covers every literal in this
development). -/
def toLowercaseAscii (s : List Nat) : List Nat :=
  s.map (fun b => if 65 ≤ b ∧ b ≤ 90 then b + 32 else b)

/-- Model of `DecryptionKey::sha256`. -/
def DecryptionKey.sha256 (username password : List Nat) : List Nat :=
  LastPass.sha256 (username ++ password)

/-- Model of `DecryptionKey::pbkdf2`. -/
def DecryptionKey.pbkdf2 (username password : List Nat)
    (iterations : Nat) : List Nat :=
  pbkdf2Sha256 password username iterations

/-- Model of `DecryptionKey::calculate` (src/keys/decryption_key.rs). -/
def DecryptionKey.calculate (username password : List Nat)
    (iterations : Nat) : List Nat :=
  let username := toLowercaseAscii username
  if iterations ≤ 1 then DecryptionKey.sha256 username password
  else DecryptionKey.pbkdf2 username password iterations

/-- Model of `LoginKey::from_bytes` (src/keys/login_key.rs): the
`assert_eq!(bytes.len() * 2, LoginKey::LEN)` abort is `none`. -/
def LoginKey.from_bytes (bytes : List Nat) : Option (List Nat) :=
  if bytes.length * 2 = 64 then some (hexEncode bytes) else none

/-- Model of `LoginKey::sha256`. -/
def LoginKey.sha256 (username password : List Nat) :
    Option (List Nat) :=
  let firstPass := LastPass.sha256 (username ++ password)
  let firstPassHex := hexEncode firstPass
  let secondPass := LastPass.sha256 (firstPassHex ++ password)
  LoginKey.from_bytes secondPass

/-- Model of `LoginKey::pbkdf2`. -/
def LoginKey.pbkdf2 (username password : List Nat) (iterations : Nat) :
    Option (List Nat) :=
  let firstPass := pbkdf2Sha256 password username iterations
  let key := pbkdf2Sha256 firstPass password 1
  LoginKey.from_bytes key

/-- Model of `LoginKey::calculate` (src/keys/login_key.rs). -/
def LoginKey.calculate (username password : List Nat)
    (iterations : Nat) : Option (List Nat) :=
  let username := toLowercaseAscii username
  if iterations ≤ 1 then LoginKey.sha256 username password
  else LoginKey.pbkdf2 username password iterations

/-- Model of `LoginKey::as_hex`: `str::from_utf8` with an `expect`; the
abort case is `none`. -/
def LoginKey.as_hex (key : List Nat) : Option (List Nat) :=
  if utf8Valid key then some key else none

/-- A concrete context for instantiating evaluations whose path never
invokes decryption or URL parsing. -/
def trivialCtx : ParseCtx := ⟨fun b => .ok b, fun s => some s⟩

/-- An `ATTA` chunk payload: id `"a"`, parent `"x"`, empty mime type and
storage key, size `"1"`, empty filename — well-formed, but its parent id
matches no account. -/
def attaPayload : List Nat :=
  [0, 0, 0, 1, 97, 0, 0, 0, 1, 120, 0, 0, 0, 0, 0, 0, 0, 0,
   0, 0, 0, 1, 49, 0, 0, 0, 0]

/-- A vault buffer holding exactly that one `ATTA` chunk and no `ACCT`. -/
def attaBuffer : List Nat := ascii "ATTA" ++ [0, 0, 0, 27] ++ attaPayload

/-- An `ACFL` chunk payload: name `"a"`, type `"x"`, empty value, empty
checked flag — well-formed, but no account precedes it. -/
def acflPayload : List Nat :=
  [0, 0, 0, 1, 97, 0, 0, 0, 1, 120, 0, 0, 0, 0, 0, 0, 0, 0]

/-- A vault buffer holding exactly that one `ACFL` chunk and no `ACCT`. -/
def acflBuffer : List Nat := ascii "ACFL" ++ [0, 0, 0, 18] ++ acflPayload

/-- C1: on an input whose `ATTA` chunk names a parent account that was
never parsed, and likewise on an `ACFL` field chunk arriving before any
`ACCT` chunk, the vault parse aborts the process (the source hits
`unimplemented!()`), for every decryption key; it does not return the
typed structural parse error the claim requires, so the claim describes
the documented intent, not the code. -/
theorem attachment_or_field_without_parent_panics (ctx : ParseCtx) :
    parse ctx attaBuffer = .panic ∧ parse ctx acflBuffer = .panic := by
  constructor
  · have h1 : Chunk.parse attaBuffer =
        some (⟨ascii "ATTA", attaPayload⟩, []) := by decide
    have h3 : handle_chunk ctx Parser.init ⟨ascii "ATTA", attaPayload⟩ =
        .panic := by
      have hatt : parse_attachment attaPayload =
          .ok ⟨ascii "a", ascii "x", [], [], 1, []⟩ := by decide
      rw [handle_chunk]
      rw [if_neg (by decide), if_neg (by decide), if_pos (by decide)]
      rw [hatt]
      rfl
    rw [parse, Parser.run.eq_def, h1]
    simp only [h3]
  · have h1 : Chunk.parse acflBuffer =
        some (⟨ascii "ACFL", acflPayload⟩, []) := by decide
    have h3 : handle_chunk ctx Parser.init ⟨ascii "ACFL", acflPayload⟩ =
        .panic := by
      have hf : parse_account_field ctx acflPayload =
          .ok ⟨ascii "x", ascii "a", [], false⟩ := by
        rw [parse_account_field]
        rfl
      rw [handle_chunk]
      rw [if_neg (by decide), if_neg (by decide), if_neg (by decide),
          if_neg (by decide), if_neg (by decide), if_neg (by decide),
          if_pos (by decide)]
      rw [hf]
      rfl
    rw [parse, Parser.run.eq_def, h1]
    simp only [h3]

/-- C2: `decrypt_base64` is not total — on an input that starts with `'!'`
but contains no `'|'` separator, `cipher_unbase64` evaluates
`find("|").unwrap()` on `None` and the process aborts, for every key; the
claimed Base64 error value is never produced.  The input here is
`"!aGVsbG8="`. -/
theorem decrypt_base64_missing_pipe_panics
    (aesDec : List Nat → List Nat) :
    DecryptionKey.decrypt_base64 aesDec (ascii "!aGVsbG8=") = .panic ∧
    cipher_unbase64 (ascii "!aGVsbG8=") = .panic := by
  constructor <;> rfl

/-- C5: the known key-derivation vectors: with username
`"michaelfbryan@gmail.com"`, password `"My Super Secret Password!"` and
iteration count 1, the decryption key is the stated 32 bytes — the SHA-256
of the lowercased username concatenated with the password — and the login
key is the stated 64-character hex string. -/
theorem key_derivation_known_vectors :
    DecryptionKey.calculate (ascii "michaelfbryan@gmail.com")
        (ascii "My Super Secret Password!") 1 =
      [119, 42, 96, 39, 180, 64, 249, 201, 243, 40, 123, 239, 14, 25, 93,
       74, 103, 166, 140, 169, 64, 6, 69, 107, 237, 61, 212, 24, 15, 196,
       145, 194] ∧
    DecryptionKey.calculate (ascii "michaelfbryan@gmail.com")
        (ascii "My Super Secret Password!") 1 =
      sha256 (toLowercaseAscii (ascii "michaelfbryan@gmail.com") ++
        ascii "My Super Secret Password!") ∧
    LoginKey.calculate (ascii "michaelfbryan@gmail.com")
        (ascii "My Super Secret Password!") 1 =
      some (ascii
        "b8a31d9784fa9a263d0e7a0d866b70612687f7067733126d74ccde02d3bab494")
    := by
  refine ⟨by decide, rfl, by decide⟩

/-- C4: for a non-empty ciphertext, `decrypt` selects CBC mode exactly when
the length is at least 33, the length is 1 mod 16, and the first byte is
`'!'` (33); in CBC mode bytes `[1..17)` are the IV and bytes `[17..)` the
AES-256-CBC/PKCS#7 ciphertext, and otherwise the whole buffer is decrypted
as AES-256-ECB/PKCS#7 with no IV (`aesDec` is the keyed AES-256 block
decryption). -/
theorem decrypt_mode_selection (aesDec : List Nat → List Nat)
    (ct : List Nat) (hne : ct ≠ []) :
    (uses_cbc ct = true ↔
      33 ≤ ct.length ∧ ct.length % 16 = 1 ∧ ct.head? = some 33) ∧
    (uses_cbc ct = true →
      DecryptionKey.decrypt aesDec ct =
        cbcDecryptVec aesDec ((ct.drop 1).take 16) (ct.drop 17)) ∧
    (uses_cbc ct = false →
      DecryptionKey.decrypt aesDec ct = ecbDecryptVec aesDec ct) := by
  have hemp : ct.isEmpty = false := by
    cases ct with
    | nil => exact absurd rfl hne
    | cons b r => rfl
  refine ⟨?_, ?_, ?_⟩
  · simp only [uses_cbc, decide_eq_true_eq]
    cases ct with
    | nil => exact absurd rfl hne
    | cons b r => simp
  · intro hcbc
    rw [DecryptionKey.decrypt]
    simp only [hemp, Bool.false_eq_true, if_false, hcbc, if_true]
  · intro hcbc
    rw [DecryptionKey.decrypt]
    simp only [hemp, Bool.false_eq_true, if_false, hcbc]

/-- Witness for C4: a 33-byte ciphertext starting with `'!'` takes the CBC
branch with its IV at bytes `[1..17)`. -/
theorem decrypt_mode_selection_witness :
    (33 :: List.replicate 32 0 : List Nat) ≠ [] ∧
    uses_cbc (33 :: List.replicate 32 0) = true ∧
    DecryptionKey.decrypt (fun b => b) (33 :: List.replicate 32 0) =
      cbcDecryptVec (fun b => b)
        (((33 :: List.replicate 32 0 : List Nat).drop 1).take 16)
        ((33 :: List.replicate 32 0 : List Nat).drop 17) :=
  ⟨by decide, by decide,
   (decrypt_mode_selection (fun b => b) (33 :: List.replicate 32 0)
      (by decide)).2.1 (by decide)⟩

/-- C6: `read_item` is a total function that, when fewer than 4 bytes
remain for the length prefix, or fewer bytes than the declared big-endian
length remain for the payload, returns the typed `UnexpectedEOF` error
naming the field being read; otherwise it returns the payload and the
remaining bytes. -/
theorem read_item_truncation (buffer : List Nat) (field : String) :
    (buffer.length < 4 →
      read_item buffer field = .error (.UnexpectedEOF field)) ∧
    (4 ≤ buffer.length →
      (buffer.length - 4 < readU32BE (buffer.take 4) →
        read_item buffer field = .error (.UnexpectedEOF field)) ∧
      (readU32BE (buffer.take 4) ≤ buffer.length - 4 →
        read_item buffer field =
          .ok ((buffer.drop 4).take (readU32BE (buffer.take 4)),
               (buffer.drop 4).drop (readU32BE (buffer.take 4))))) := by
  refine ⟨fun hlt => ?_, fun hge => ⟨fun hsh => ?_, fun hok => ?_⟩⟩
  · rw [read_item, if_pos hlt]
  · rw [read_item, if_neg (by omega)]
    simp only [List.length_drop]
    rw [if_pos (by omega)]
  · rw [read_item, if_neg (by omega)]
    simp only [List.length_drop]
    rw [if_neg (by omega)]

/-- Witness for C6: a 1-byte buffer fails on the length prefix, and a
buffer declaring 5 payload bytes but holding 1 fails on the payload, both
with `UnexpectedEOF` naming the field. -/
theorem read_item_truncation_witness :
    read_item [0] "account.id" = .error (.UnexpectedEOF "account.id") ∧
    read_item [0, 0, 0, 5, 1] "account.name" =
      .error (.UnexpectedEOF "account.name") :=
  ⟨(read_item_truncation [0] "account.id").1 (by decide),
   ((read_item_truncation [0, 0, 0, 5, 1] "account.name").2
      (by decide)).1 (by decide)⟩

/-- A vault buffer holding one `LPAV` chunk whose payload `[255]` is not
UTF-8 (and thus cannot be decoded as an integer). -/
def lpavBadBuffer : List Nat := ascii "LPAV" ++ [0, 0, 0, 1] ++ [255]

/-- A vault buffer holding one `LPAV` chunk whose payload is the UTF-8
string `"abc"`, which does not parse as an integer. -/
def lpavAbcBuffer : List Nat := ascii "LPAV" ++ [0, 0, 0, 3] ++ ascii "abc"

/-- Counterexample to C7 as stated: an `LPAV` payload that is not UTF-8
cannot be decoded as an integer, yet the parse fails right there with
`ChunkShouldBeString` (the `?` on `chunk.data_as_str()`), not with the
end-of-stream missing-field error the claim predicts. -/
theorem lpav_non_utf8_payload_fails_at_chunk :
    parse trivialCtx lpavBadBuffer =
      .err (.ChunkShouldBeString (ascii "LPAV")) ∧
    VaultParseError.ChunkShouldBeString (ascii "LPAV") ≠
      VaultParseError.MissingField "vault_version" := by
  constructor
  · have h1 : Chunk.parse lpavBadBuffer =
        some (⟨ascii "LPAV", [255]⟩, []) := by decide
    have h3 : handle_chunk trivialCtx Parser.init ⟨ascii "LPAV", [255]⟩ =
        .err (.ChunkShouldBeString (ascii "LPAV")) := by
      rw [handle_chunk, if_pos (by decide)]
      rw [if_neg (by decide)]
    rw [parse, Parser.run.eq_def, h1]
    simp only [h3]
  · decide

/-- C7 (amended): an `LPAV` payload that is valid UTF-8 but does not parse
as an integer is non-fatal — the handler succeeds and the version
accumulator becomes unset — and any run of the parser that ends with the
version accumulator unset makes the whole parse fail with the
`MissingField "vault_version"` error.  (A non-UTF-8 `LPAV` payload is
instead an immediate `ChunkShouldBeString` error.) -/
theorem lpav_unparsable_nonfatal_and_version_required :
    (∀ (ctx : ParseCtx) (p : Parser) (data : List Nat),
      utf8Valid data = true → parseU64 data = none →
      handle_chunk ctx p ⟨ascii "LPAV", data⟩ =
        .ok { p with vault_version := none }) ∧
    (∀ (ctx : ParseCtx) (raw : List Nat) (p : Parser),
      Parser.run ctx Parser.init raw = .ok p → p.vault_version = none →
      parse ctx raw = .err (.MissingField "vault_version")) := by
  constructor
  · intro ctx p data hUtf hParse
    rw [handle_chunk, if_pos rfl, if_pos hUtf, hParse]
  · intro ctx raw p hRun hVersion
    rw [parse, hRun]
    dsimp only
    rw [hVersion]

/-- Witness for C7 (amended): the payload `"abc"` leaves the version unset
without failing, and the one-chunk buffer `LPAV "abc"` parses to the
`MissingField "vault_version"` error. -/
theorem lpav_unparsable_nonfatal_and_version_required_witness :
    handle_chunk trivialCtx Parser.init ⟨ascii "LPAV", ascii "abc"⟩ =
      .ok { Parser.init with vault_version := none } ∧
    parse trivialCtx lpavAbcBuffer =
      .err (.MissingField "vault_version") := by
  constructor
  · exact (lpav_unparsable_nonfatal_and_version_required).1 trivialCtx
      Parser.init (ascii "abc") (by decide) (by decide)
  · refine (lpav_unparsable_nonfatal_and_version_required).2 trivialCtx
      lpavAbcBuffer Parser.init ?_ rfl
    have h1 : Chunk.parse lpavAbcBuffer =
        some (⟨ascii "LPAV", ascii "abc"⟩, []) := by decide
    have h2 : Chunk.parse ([] : List Nat) = none := by decide
    have h3 : handle_chunk trivialCtx Parser.init
        ⟨ascii "LPAV", ascii "abc"⟩ =
        .ok { Parser.init with vault_version := none } :=
      (lpav_unparsable_nonfatal_and_version_required).1 trivialCtx
        Parser.init (ascii "abc") (by decide) (by decide)
    rw [Parser.run.eq_def, h1]
    simp only [h3]
    rw [Parser.run.eq_def, h2]
    rfl

/-- Big-endian 4-byte encoding of a chunk payload length, the inverse view
of `readU32BE`. -/
def be32 (n : Nat) : List Nat :=
  [n / 2 ^ 24 % 256, n / 2 ^ 16 % 256, n / 2 ^ 8 % 256, n % 256]

/-- Re-serialization of an emitted chunk: tag, big-endian length, payload. -/
def serializeChunk (c : Chunk) : List Nat :=
  c.name ++ be32 c.data.length ++ c.data

/-- Repeatedly apply the chunk tokenizer, collecting the emitted chunks
(the loop of `Parser::parse`, observed at the chunk level). -/
def tokenize (buffer : List Nat) : List Chunk :=
  match h : Chunk.parse buffer with
  | none => []
  | some (c, rest) => c :: tokenize rest
termination_by buffer.length
decreasing_by
  have := chunkParse_consumes buffer c rest h
  omega

/-- Buffers that are an exact concatenation of well-formed chunks: each a
4-byte tag, a 4-byte big-endian length (so the payload is shorter than
2^32), and exactly that many payload bytes. -/
inductive WellFormedStream : List Nat → Prop where
  | nil : WellFormedStream []
  | cons (name data rest : List Nat) (hname : name.length = 4)
      (hdata : data.length < 2 ^ 32) (h : WellFormedStream rest) :
      WellFormedStream (name ++ be32 data.length ++ data ++ rest)

/-- Reading back the big-endian length encoding recovers the length. -/
theorem readU32BE_be32 (n : Nat) (hn : n < 2 ^ 32) (tail : List Nat) :
    readU32BE (be32 n ++ tail) = n := by
  simp only [be32, List.cons_append, List.nil_append, readU32BE]
  omega

/-- `Chunk::parse` on a serialized well-formed chunk returns exactly that
chunk and the unread remainder. -/
theorem chunkParse_serialized (name data rest : List Nat)
    (hname : name.length = 4) (hdata : data.length < 2 ^ 32) :
    Chunk.parse (name ++ be32 data.length ++ data ++ rest) =
      some (⟨name, data⟩, rest) := by
  have hbe : (be32 data.length).length = 4 := rfl
  rw [Chunk.parse]
  rw [if_neg (by simp; omega)]
  have h1 : (name ++ be32 data.length ++ data ++ rest).take 4 = name := by
    rw [List.append_assoc, List.append_assoc]
    exact List.take_left' hname
  have h2 : (name ++ be32 data.length ++ data ++ rest).drop 4 =
      be32 data.length ++ (data ++ rest) := by
    rw [List.append_assoc, List.append_assoc]
    rw [List.drop_left' hname]
  rw [h1, h2]
  rw [if_neg (by simp only [List.length_append, hbe]; omega)]
  have h3 : (be32 data.length ++ (data ++ rest)).take 4 =
      be32 data.length := List.take_left' hbe
  have h4 : (be32 data.length ++ (data ++ rest)).drop 4 = data ++ rest :=
    List.drop_left' hbe
  rw [h3, h4]
  have h5 : readU32BE (be32 data.length) = data.length := by
    have := readU32BE_be32 data.length hdata []
    simpa using this
  rw [h5]
  rw [if_neg (by simp)]
  rw [List.take_left' rfl, List.drop_left' rfl]

/-- C8: for every buffer that is an exact concatenation of well-formed
chunks, concatenating the re-serialized (tag, big-endian length, payload)
of every chunk the tokenizer emits reconstructs the original buffer
exactly — no chunk is partially consumed, duplicated, or left over. -/
theorem tokenize_reserialize_roundtrip (buffer : List Nat)
    (h : WellFormedStream buffer) :
    ((tokenize buffer).map serializeChunk).flatten = buffer := by
  induction h with
  | nil =>
    rw [tokenize.eq_def]
    rfl
  | cons name data rest hname hdata h ih =>
    have hp := chunkParse_serialized name data rest hname hdata
    rw [tokenize.eq_def, hp]
    simp [serializeChunk, ih, List.append_assoc]

/-- Witness for C8: the `LPAV "198"` test chunk is a well-formed stream
and round-trips byte-for-byte. -/
theorem tokenize_reserialize_roundtrip_witness :
    WellFormedStream (ascii "LPAV" ++ [0, 0, 0, 3] ++ ascii "198") ∧
    ((tokenize (ascii "LPAV" ++ [0, 0, 0, 3] ++ ascii "198")).map
        serializeChunk).flatten =
      ascii "LPAV" ++ [0, 0, 0, 3] ++ ascii "198" := by
  have hwf : WellFormedStream (ascii "LPAV" ++ [0, 0, 0, 3] ++ ascii "198")
      := by
    have h1 := WellFormedStream.cons (ascii "LPAV") (ascii "198") []
      (by decide) (by decide) WellFormedStream.nil
    have heq : ascii "LPAV" ++ be32 (ascii "198").length ++ ascii "198"
        ++ [] = ascii "LPAV" ++ [0, 0, 0, 3] ++ ascii "198" := by decide
    rwa [heq] at h1
  exact ⟨hwf, tokenize_reserialize_roundtrip _ hwf⟩

/-- C9: the tokenizer makes monotonic forward progress, so the parse loop
terminates on every input (`Parser.run` above is well-founded exactly by
this measure): a successful chunk read consumes the 4-byte tag, the 4-byte
length, and the payload — at least 8 bytes — and whenever fewer than 8
bytes remain for tag plus length, or fewer bytes than the declared payload
length remain, `Chunk::parse` reports end-of-stream (`none`) rather than
looping. -/
theorem tokenizer_progress (buffer : List Nat) :
    (∀ c rest, Chunk.parse buffer = some (c, rest) →
      rest.length + 8 ≤ buffer.length ∧
      rest.length + 8 + c.data.length = buffer.length) ∧
    (buffer.length < 8 → Chunk.parse buffer = none) ∧
    (8 ≤ buffer.length →
      buffer.length < 8 + readU32BE ((buffer.drop 4).take 4) →
      Chunk.parse buffer = none) := by
  refine ⟨fun c rest h => ⟨?_, chunkParse_consumes buffer c rest h⟩,
    fun hlt => ?_, fun hge hsh => ?_⟩
  · have := chunkParse_consumes buffer c rest h
    omega
  · rw [Chunk.parse]
    by_cases h4 : buffer.length < 4
    · rw [if_pos h4]
    · rw [if_neg h4, if_pos (by simp; omega)]
  · rw [Chunk.parse, if_neg (by omega)]
    rw [if_neg (by simp; omega)]
    rw [if_pos (by simp; omega)]

/-- Witness for C9: on a buffer of 7 bytes the tokenizer reports
end-of-stream, and on the 11-byte `LPAV` chunk a successful read consumes
all 11 = 8 + 3 bytes. -/
theorem tokenizer_progress_witness :
    Chunk.parse [76, 80, 65, 86, 0, 0, 0] = none ∧
    ([] : List Nat).length + 8 ≤
      (ascii "LPAV" ++ [0, 0, 0, 3] ++ ascii "198").length := by
  refine ⟨(tokenizer_progress [76, 80, 65, 86, 0, 0, 0]).2.1 (by decide),
    ((tokenizer_progress (ascii "LPAV" ++ [0, 0, 0, 3] ++
      ascii "198")).1 ⟨ascii "LPAV", ascii "198"⟩ [] (by decide)).1⟩

/-- ASCII hexadecimal digit bytes: `'0'..'9'` or lowercase `'a'..'f'`. -/
def isHexDigitByte (b : Nat) : Bool :=
  decide ((48 ≤ b ∧ b ≤ 57) ∨ (97 ≤ b ∧ b ≤ 102))

/-- The SHA-256 digest always has 32 bytes. -/
theorem sha256_length (msg : List Nat) : (sha256 msg).length = 32 := by
  simp [sha256, word32Bytes]

/-- Each byte of a big-endian word encoding is below 256. -/
theorem word32Bytes_lt (n : Nat) : ∀ b ∈ word32Bytes n, b < 256 := by
  intro b hb
  simp only [word32Bytes, List.mem_cons, List.not_mem_nil, or_false] at hb
  rcases hb with h | h | h | h <;> subst h <;>
    exact Nat.mod_lt _ (by norm_num)

/-- Every byte of a SHA-256 digest is below 256. -/
theorem sha256_lt (msg : List Nat) : ∀ b ∈ sha256 msg, b < 256 := by
  intro b hb
  rw [sha256] at hb
  simp only [List.mem_append] at hb
  rcases hb with ((((((h | h) | h) | h) | h) | h) | h) | h <;>
    exact word32Bytes_lt _ b h

/-- `hexEncode` doubles the length. -/
theorem hexEncode_length (l : List Nat) :
    (hexEncode l).length = 2 * l.length := by
  induction l with
  | nil => rfl
  | cons b rest ih =>
    simp only [hexEncode, List.length_cons, ih]
    omega

/-- `hexDigitChar` of a nibble is a hex digit byte. -/
theorem hexDigitChar_isHex (n : Nat) (h : n < 16) :
    isHexDigitByte (hexDigitChar n) = true := by
  rw [hexDigitChar]
  split
  · rw [isHexDigitByte, decide_eq_true_eq]
    show 48 ≤ 48 + n ∧ 48 + n ≤ 57 ∨ 97 ≤ 48 + n ∧ 48 + n ≤ 102
    omega
  · rw [isHexDigitByte, decide_eq_true_eq]
    show 48 ≤ 87 + n ∧ 87 + n ≤ 57 ∨ 97 ≤ 87 + n ∧ 87 + n ≤ 102
    omega

/-- `hexEncode` of a byte string yields only hex digit bytes. -/
theorem hexEncode_all_hex (l : List Nat) (h : ∀ b ∈ l, b < 256) :
    (hexEncode l).all isHexDigitByte = true := by
  induction l with
  | nil => rfl
  | cons b rest ih =>
    simp only [hexEncode, List.all_cons, Bool.and_eq_true]
    have hb : b < 256 := h b (List.mem_cons_self b rest)
    have hd1 : b / 16 < 16 := by omega
    have hd2 : b % 16 < 16 := by omega
    exact ⟨hexDigitChar_isHex _ hd1, hexDigitChar_isHex _ hd2,
      ih (fun x hx => h x (List.mem_cons_of_mem b hx))⟩

/-- A hex digit byte is ASCII. -/
theorem isHexDigitByte_le (b : Nat) (h : isHexDigitByte b = true) :
    b ≤ 127 := by
  rw [isHexDigitByte, decide_eq_true_eq] at h
  have h2 : (48 ≤ b ∧ b ≤ 57) ∨ (97 ≤ b ∧ b ≤ 102) := h
  omega

/-- Bytes at most 127 classify as ASCII leads. -/
theorem utf8Class_ascii (b : Nat) (h : b ≤ 127) : utf8Class b = .ascii := by
  rw [utf8Class, if_pos ?_]
  exact h

/-- With enough fuel, a list of ASCII bytes validates. -/
theorem utf8ValidAux_of_ascii (fuel : Nat) (l : List Nat)
    (h : ∀ b ∈ l, b ≤ 127) (hf : l.length ≤ fuel) :
    utf8ValidAux fuel l = true := by
  induction fuel generalizing l with
  | zero =>
    cases l with
    | nil => rfl
    | cons b rest => simp at hf
  | succ m ih =>
    cases l with
    | nil => rfl
    | cons b rest =>
      rw [utf8ValidAux, utf8Class_ascii b (h b (List.mem_cons_self b rest))]
      exact ih rest (fun x hx => h x (List.mem_cons_of_mem b hx))
        (by simp at hf ⊢; omega)

/-- A list of ASCII bytes is valid UTF-8. -/
theorem utf8Valid_of_ascii (l : List Nat) (h : ∀ b ∈ l, b ≤ 127) :
    utf8Valid l = true :=
  utf8ValidAux_of_ascii l.length l h le_rfl

/-- Length of a byte-wise xor. -/
theorem xorBytes_length (a b : List Nat) :
    (xorBytes a b).length = min a.length b.length := by
  simp [xorBytes]

/-- `xorBytes` of byte strings is a byte string. -/
theorem xorBytes_lt (a b : List Nat) (ha : ∀ x ∈ a, x < 256)
    (hb : ∀ x ∈ b, x < 256) : ∀ x ∈ xorBytes a b, x < 256 := by
  induction a generalizing b with
  | nil => simp [xorBytes]
  | cons y ys ih =>
    cases b with
    | nil => simp [xorBytes]
    | cons z zs =>
      intro x hx
      simp only [xorBytes, List.zipWith_cons_cons, List.mem_cons] at hx
      rcases hx with hx | hx
      · subst hx
        have h1 : y < 2 ^ 8 := ha y (List.mem_cons_self y ys)
        have h2 : z < 2 ^ 8 := hb z (List.mem_cons_self z zs)
        exact Nat.xor_lt_two_pow h1 h2
      · exact ih zs (fun u hu => ha u (List.mem_cons_of_mem y hu))
          (fun u hu => hb u (List.mem_cons_of_mem z hu)) x hx

/-- The HMAC-SHA256 tag has 32 bytes, all below 256. -/
theorem hmacSha256_spec (key msg : List Nat) :
    (hmacSha256 key msg).length = 32 ∧
      ∀ x ∈ hmacSha256 key msg, x < 256 :=
  ⟨sha256_length _, sha256_lt _⟩

/-- The PBKDF2 xor accumulation preserves the 32-byte shape. -/
theorem pbkdf2Iter_spec (password : List Nat) :
    ∀ (n : Nat) (u acc : List Nat), acc.length = 32 →
      (∀ x ∈ acc, x < 256) →
      (pbkdf2Iter password u acc n).length = 32 ∧
        ∀ x ∈ pbkdf2Iter password u acc n, x < 256 := by
  intro n
  induction n with
  | zero => exact fun u acc h1 h2 => ⟨h1, h2⟩
  | succ m ih =>
    intro u acc h1 h2
    rw [pbkdf2Iter]
    apply ih
    · rw [xorBytes_length, h1, (hmacSha256_spec password u).1]
      omega
    · exact xorBytes_lt _ _ h2 (hmacSha256_spec password u).2

/-- The single-block PBKDF2-HMAC-SHA256 output has 32 bytes, all below
256, for every iteration count. -/
theorem pbkdf2Sha256_spec (password salt : List Nat) (iterations : Nat) :
    (pbkdf2Sha256 password salt iterations).length = 32 ∧
      ∀ x ∈ pbkdf2Sha256 password salt iterations, x < 256 := by
  rw [pbkdf2Sha256]
  exact pbkdf2Iter_spec password (iterations - 1) _ _
    (hmacSha256_spec password _).1 (hmacSha256_spec password _).2

/-- C10: for every username, password and iteration count,
`LoginKey::calculate` succeeds — the `assert_eq!` in `from_bytes` holds
because both derivation paths produce a 32-byte digest — and the key is
exactly 64 ASCII hexadecimal bytes, so `as_hex`'s UTF-8 expectation can
never fail and always returns the 64-character hex string. -/
theorem login_key_is_hex64 (username password : List Nat)
    (iterations : Nat) :
    ∃ key, LoginKey.calculate username password iterations = some key ∧
      key.length = 64 ∧ key.all isHexDigitByte = true ∧
      LoginKey.as_hex key = some key := by
  have main : ∀ digest : List Nat, digest.length = 32 →
      (∀ x ∈ digest, x < 256) →
      ∃ key, LoginKey.from_bytes digest = some key ∧
        key.length = 64 ∧ key.all isHexDigitByte = true ∧
        LoginKey.as_hex key = some key := by
    intro digest hlen hlt
    refine ⟨hexEncode digest, ?_, ?_, hexEncode_all_hex digest hlt, ?_⟩
    · rw [LoginKey.from_bytes, if_pos (by omega)]
    · rw [hexEncode_length, hlen]
    · rw [LoginKey.as_hex, if_pos ?_]
      apply utf8Valid_of_ascii
      intro b hb
      apply isHexDigitByte_le
      have hall := hexEncode_all_hex digest hlt
      simp only [List.all_eq_true] at hall
      exact hall b hb
  rw [LoginKey.calculate]
  split
  · rw [LoginKey.sha256]
    exact main _ (sha256_length _) (sha256_lt _)
  · rw [LoginKey.pbkdf2]
    exact main _ (pbkdf2Sha256_spec _ _ 1).1 (pbkdf2Sha256_spec _ _ 1).2


/-- The six read-spec kinds the spec's section 4.5 assigns to sub-fields:
read-and-parse, read-and-decrypt, read-hex, read-boolean, read-string and
skip. -/
inductive ReadSpec where
  | readParsed
  | readEncrypted
  | readHex
  | readBool
  | readStr
  | skipF
deriving DecidableEq, Repr

/-- A decoded sub-field value: a (byte) string, a boolean flag, or a
skipped placeholder. -/
inductive FieldVal where
  | str (s : List Nat)
  | flag (b : Bool)
  | skipped
deriving DecidableEq, Repr

/-- Execute one read spec against the buffer using the corresponding
source reader. -/
def readSpecOne (ctx : ParseCtx) (spec : ReadSpec) (field : String)
    (buffer : List Nat) : Except VaultParseError (FieldVal × List Nat) :=
  match spec with
  | .readParsed =>
    match read_parsed_id buffer field with
    | .error e => .error e
    | .ok (s, rest) => .ok (.str s, rest)
  | .readEncrypted =>
    match read_encrypted ctx buffer field with
    | .error e => .error e
    | .ok (s, rest) => .ok (.str s, rest)
  | .readHex =>
    match read_hex_string buffer field with
    | .error e => .error e
    | .ok (s, rest) => .ok (.str s, rest)
  | .readBool =>
    match read_bool buffer field with
    | .error e => .error e
    | .ok (b, rest) => .ok (.flag b, rest)
  | .readStr =>
    match read_str_item buffer field with
    | .error e => .error e
    | .ok (s, rest) => .ok (.str s, rest)
  | .skipF =>
    match skip buffer field with
    | .error e => .error e
    | .ok rest => .ok (.skipped, rest)

/-- Execute an ordered list of read specs left to right, collecting the
values and the remaining buffer. -/
def runSchema (ctx : ParseCtx) :
    List (String × ReadSpec) → List Nat →
      Except VaultParseError (List FieldVal × List Nat)
  | [], buffer => .ok ([], buffer)
  | (field, spec) :: rest, buffer =>
    match readSpecOne ctx spec field buffer with
    | .error e => .error e
    | .ok (v, buffer2) =>
      match runSchema ctx rest buffer2 with
      | .error e => .error e
      | .ok (vs, buffer3) => .ok (v :: vs, buffer3)

/-- The account decoding order as the claim states it: id (parsed),
name/group (decrypted), url (hex), note (decrypted), favourite (bool), one
skip (shared-from-account-id), username/password (decrypted),
password-protected (bool), two skips (generated-password, secure-note),
last-touch (string), thirteen skips in order (autologin, never-autofill,
realm-data, form-id, custom-js, submit-id, captcha-id, url-id, basic-auth,
http-method, http-action, group-id, deleted-flag), encrypted attachment
key (string), attachment-present (bool), one skip (individual-share),
note-type (string), one skip (no-alert), last-modified (string), three
skips (has-been-shared, last-password-change, created), one skip
(vulnerable).  Field names are the source's error labels for those
sub-fields. -/
def accountSchema : List (String × ReadSpec) :=
  [("account.id", .readParsed),
   ("account.name", .readEncrypted),
   ("account.group", .readEncrypted),
   ("account.url", .readHex),
   ("account.note", .readEncrypted),
   ("account.fav", .readBool),
   ("account.sharedfromaid", .skipF),
   ("account.username", .readEncrypted),
   ("account.password", .readEncrypted),
   ("account.pwprotect", .readBool),
   ("account.genpw", .skipF),
   ("account.sn", .skipF),
   ("account.last_touch", .readStr),
   ("account.autologin", .skipF),
   ("account.never_autofill", .skipF),
   ("account.realm_data", .skipF),
   ("account.fiid", .skipF),
   ("account.custom_js", .skipF),
   ("account.submit_id", .skipF),
   ("account.captcha_id", .skipF),
   ("account.urid", .skipF),
   ("account.basic_auth", .skipF),
   ("account.method", .skipF),
   ("account.action", .skipF),
   ("account.groupid", .skipF),
   ("account.deleted", .skipF),
   ("account.attachkey_encrypted", .readStr),
   ("account.attachpresent", .readBool),
   ("account.individualshare", .skipF),
   ("account.notetype", .readStr),
   ("account.noalert", .skipF),
   ("account.last_modified_gmt", .readStr),
   ("account.hasbeenshared", .skipF),
   ("account.last_pwchange_gmt", .skipF),
   ("account.created_gmt", .skipF),
   ("account.vulnerable", .skipF)]

/-- Assemble the `Account` from the 36 positional values produced by
`accountSchema` (URL through the abstracted `url::Url::parse`, attachments
and fields empty); any other shape is unreachable for `accountSchema`. -/
def accountOfVals (ctx : ParseCtx) (vals : List FieldVal) :
    Except VaultParseError Account :=
  match vals with
  | .str aid :: .str aname :: .str agroup :: .str aurl :: .str anote ::
    .flag afav :: .skipped :: .str ausername :: .str apassword ::
    .flag apwprotect :: .skipped :: .skipped :: .str atouch ::
    .skipped :: .skipped :: .skipped :: .skipped :: .skipped :: .skipped ::
    .skipped :: .skipped :: .skipped :: .skipped :: .skipped :: .skipped ::
    .skipped :: .str akey :: .flag apresent :: .skipped ::
    .str antype :: .skipped :: .str amodified ::
    .skipped :: .skipped :: .skipped :: .skipped :: [] =>
    match ctx.urlParse aurl with
    | none => .error (.BadParse "account.url")
    | some parsedUrl =>
      .ok { id := aid, name := aname, username := ausername,
            password := apassword, password_protected := apwprotect,
            note := anote, note_type := antype, last_touch := atouch,
            encrypted_attachment_key := akey,
            attachment_present := apresent, favourite := afav,
            group := agroup, last_modified := amodified,
            url := parsedUrl, attachments := [], fields := [] }
  | _ => .error (.MissingField "account.schema.mismatch")

/-- C3: `parse_account` consumes its chunk payload as exactly the ordered
sub-field sequence of `accountSchema` — same reads, same order, same field
labels, each skip exactly once — and every `Account` it produces has empty
attachments and fields lists. -/
theorem parse_account_follows_schema (ctx : ParseCtx)
    (buffer : List Nat) :
    (parse_account ctx buffer =
      match runSchema ctx accountSchema buffer with
      | .error e => .error e
      | .ok (vals, _) => accountOfVals ctx vals) ∧
    ∀ acct, parse_account ctx buffer = .ok acct →
      acct.attachments = [] ∧ acct.fields = [] := by
  constructor
  · show parse_account ctx buffer =
      match runSchema ctx accountSchema buffer with
      | .error e => .error e
      | .ok (vals, _) => accountOfVals ctx vals
    simp only [parse_account, runSchema, accountSchema, readSpecOne]
    cases h1 : read_parsed_id buffer "account.id" with
    | error e => simp only [h1]
    | ok p1 =>
      obtain ⟨v1, buf1⟩ := p1
      simp only [h1]
      cases h2 : read_encrypted ctx buf1 "account.name" with
      | error e => simp only [h2]
      | ok p2 =>
        obtain ⟨v2, buf2⟩ := p2
        simp only [h2]
        cases h3 : read_encrypted ctx buf2 "account.group" with
        | error e => simp only [h3]
        | ok p3 =>
          obtain ⟨v3, buf3⟩ := p3
          simp only [h3]
          cases h4 : read_hex_string buf3 "account.url" with
          | error e => simp only [h4]
          | ok p4 =>
            obtain ⟨v4, buf4⟩ := p4
            simp only [h4]
            cases h5 : read_encrypted ctx buf4 "account.note" with
            | error e => simp only [h5]
            | ok p5 =>
              obtain ⟨v5, buf5⟩ := p5
              simp only [h5]
              cases h6 : read_bool buf5 "account.fav" with
              | error e => simp only [h6]
              | ok p6 =>
                obtain ⟨v6, buf6⟩ := p6
                simp only [h6]
                cases h7 : skip buf6 "account.sharedfromaid" with
                | error e => simp only [h7]
                | ok buf7 =>
                  simp only [h7]
                  cases h8 : read_encrypted ctx buf7 "account.username" with
                  | error e => simp only [h8]
                  | ok p8 =>
                    obtain ⟨v8, buf8⟩ := p8
                    simp only [h8]
                    cases h9 : read_encrypted ctx buf8 "account.password" with
                    | error e => simp only [h9]
                    | ok p9 =>
                      obtain ⟨v9, buf9⟩ := p9
                      simp only [h9]
                      cases h10 : read_bool buf9 "account.pwprotect" with
                      | error e => simp only [h10]
                      | ok p10 =>
                        obtain ⟨v10, buf10⟩ := p10
                        simp only [h10]
                        cases h11 : skip buf10 "account.genpw" with
                        | error e => simp only [h11]
                        | ok buf11 =>
                          simp only [h11]
                          cases h12 : skip buf11 "account.sn" with
                          | error e => simp only [h12]
                          | ok buf12 =>
                            simp only [h12]
                            cases h13 : read_str_item buf12 "account.last_touch" with
                            | error e => simp only [h13]
                            | ok p13 =>
                              obtain ⟨v13, buf13⟩ := p13
                              simp only [h13]
                              cases h14 : skip buf13 "account.autologin" with
                              | error e => simp only [h14]
                              | ok buf14 =>
                                simp only [h14]
                                cases h15 : skip buf14 "account.never_autofill" with
                                | error e => simp only [h15]
                                | ok buf15 =>
                                  simp only [h15]
                                  cases h16 : skip buf15 "account.realm_data" with
                                  | error e => simp only [h16]
                                  | ok buf16 =>
                                    simp only [h16]
                                    cases h17 : skip buf16 "account.fiid" with
                                    | error e => simp only [h17]
                                    | ok buf17 =>
                                      simp only [h17]
                                      cases h18 : skip buf17 "account.custom_js" with
                                      | error e => simp only [h18]
                                      | ok buf18 =>
                                        simp only [h18]
                                        cases h19 : skip buf18 "account.submit_id" with
                                        | error e => simp only [h19]
                                        | ok buf19 =>
                                          simp only [h19]
                                          cases h20 : skip buf19 "account.captcha_id" with
                                          | error e => simp only [h20]
                                          | ok buf20 =>
                                            simp only [h20]
                                            cases h21 : skip buf20 "account.urid" with
                                            | error e => simp only [h21]
                                            | ok buf21 =>
                                              simp only [h21]
                                              cases h22 : skip buf21 "account.basic_auth" with
                                              | error e => simp only [h22]
                                              | ok buf22 =>
                                                simp only [h22]
                                                cases h23 : skip buf22 "account.method" with
                                                | error e => simp only [h23]
                                                | ok buf23 =>
                                                  simp only [h23]
                                                  cases h24 : skip buf23 "account.action" with
                                                  | error e => simp only [h24]
                                                  | ok buf24 =>
                                                    simp only [h24]
                                                    cases h25 : skip buf24 "account.groupid" with
                                                    | error e => simp only [h25]
                                                    | ok buf25 =>
                                                      simp only [h25]
                                                      cases h26 : skip buf25 "account.deleted" with
                                                      | error e => simp only [h26]
                                                      | ok buf26 =>
                                                        simp only [h26]
                                                        cases h27 : read_str_item buf26 "account.attachkey_encrypted" with
                                                        | error e => simp only [h27]
                                                        | ok p27 =>
                                                          obtain ⟨v27, buf27⟩ := p27
                                                          simp only [h27]
                                                          cases h28 : read_bool buf27 "account.attachpresent" with
                                                          | error e => simp only [h28]
                                                          | ok p28 =>
                                                            obtain ⟨v28, buf28⟩ := p28
                                                            simp only [h28]
                                                            cases h29 : skip buf28 "account.individualshare" with
                                                            | error e => simp only [h29]
                                                            | ok buf29 =>
                                                              simp only [h29]
                                                              cases h30 : read_str_item buf29 "account.notetype" with
                                                              | error e => simp only [h30]
                                                              | ok p30 =>
                                                                obtain ⟨v30, buf30⟩ := p30
                                                                simp only [h30]
                                                                cases h31 : skip buf30 "account.noalert" with
                                                                | error e => simp only [h31]
                                                                | ok buf31 =>
                                                                  simp only [h31]
                                                                  cases h32 : read_str_item buf31 "account.last_modified_gmt" with
                                                                  | error e => simp only [h32]
                                                                  | ok p32 =>
                                                                    obtain ⟨v32, buf32⟩ := p32
                                                                    simp only [h32]
                                                                    cases h33 : skip buf32 "account.hasbeenshared" with
                                                                    | error e => simp only [h33]
                                                                    | ok buf33 =>
                                                                      simp only [h33]
                                                                      cases h34 : skip buf33 "account.last_pwchange_gmt" with
                                                                      | error e => simp only [h34]
                                                                      | ok buf34 =>
                                                                        simp only [h34]
                                                                        cases h35 : skip buf34 "account.created_gmt" with
                                                                        | error e => simp only [h35]
                                                                        | ok buf35 =>
                                                                          simp only [h35]
                                                                          cases h36 : skip buf35 "account.vulnerable" with
                                                                          | error e => simp only [h36]
                                                                          | ok buf36 =>
                                                                            simp only [h36]
                                                                            simp only [accountOfVals]
  intro acct h
  simp only [parse_account] at h
  cases h1 : read_parsed_id buffer "account.id" with
  | error e =>
    simp only [h1] at h
    exact absurd h (by simp)
  | ok p1 =>
    obtain ⟨v1, buf1⟩ := p1
    simp only [h1] at h
    cases h2 : read_encrypted ctx buf1 "account.name" with
    | error e =>
      simp only [h2] at h
      exact absurd h (by simp)
    | ok p2 =>
      obtain ⟨v2, buf2⟩ := p2
      simp only [h2] at h
      cases h3 : read_encrypted ctx buf2 "account.group" with
      | error e =>
        simp only [h3] at h
        exact absurd h (by simp)
      | ok p3 =>
        obtain ⟨v3, buf3⟩ := p3
        simp only [h3] at h
        cases h4 : read_hex_string buf3 "account.url" with
        | error e =>
          simp only [h4] at h
          exact absurd h (by simp)
        | ok p4 =>
          obtain ⟨v4, buf4⟩ := p4
          simp only [h4] at h
          cases h5 : read_encrypted ctx buf4 "account.note" with
          | error e =>
            simp only [h5] at h
            exact absurd h (by simp)
          | ok p5 =>
            obtain ⟨v5, buf5⟩ := p5
            simp only [h5] at h
            cases h6 : read_bool buf5 "account.fav" with
            | error e =>
              simp only [h6] at h
              exact absurd h (by simp)
            | ok p6 =>
              obtain ⟨v6, buf6⟩ := p6
              simp only [h6] at h
              cases h7 : skip buf6 "account.sharedfromaid" with
              | error e =>
                simp only [h7] at h
                exact absurd h (by simp)
              | ok buf7 =>
                simp only [h7] at h
                cases h8 : read_encrypted ctx buf7 "account.username" with
                | error e =>
                  simp only [h8] at h
                  exact absurd h (by simp)
                | ok p8 =>
                  obtain ⟨v8, buf8⟩ := p8
                  simp only [h8] at h
                  cases h9 : read_encrypted ctx buf8 "account.password" with
                  | error e =>
                    simp only [h9] at h
                    exact absurd h (by simp)
                  | ok p9 =>
                    obtain ⟨v9, buf9⟩ := p9
                    simp only [h9] at h
                    cases h10 : read_bool buf9 "account.pwprotect" with
                    | error e =>
                      simp only [h10] at h
                      exact absurd h (by simp)
                    | ok p10 =>
                      obtain ⟨v10, buf10⟩ := p10
                      simp only [h10] at h
                      cases h11 : skip buf10 "account.genpw" with
                      | error e =>
                        simp only [h11] at h
                        exact absurd h (by simp)
                      | ok buf11 =>
                        simp only [h11] at h
                        cases h12 : skip buf11 "account.sn" with
                        | error e =>
                          simp only [h12] at h
                          exact absurd h (by simp)
                        | ok buf12 =>
                          simp only [h12] at h
                          cases h13 : read_str_item buf12 "account.last_touch" with
                          | error e =>
                            simp only [h13] at h
                            exact absurd h (by simp)
                          | ok p13 =>
                            obtain ⟨v13, buf13⟩ := p13
                            simp only [h13] at h
                            cases h14 : skip buf13 "account.autologin" with
                            | error e =>
                              simp only [h14] at h
                              exact absurd h (by simp)
                            | ok buf14 =>
                              simp only [h14] at h
                              cases h15 : skip buf14 "account.never_autofill" with
                              | error e =>
                                simp only [h15] at h
                                exact absurd h (by simp)
                              | ok buf15 =>
                                simp only [h15] at h
                                cases h16 : skip buf15 "account.realm_data" with
                                | error e =>
                                  simp only [h16] at h
                                  exact absurd h (by simp)
                                | ok buf16 =>
                                  simp only [h16] at h
                                  cases h17 : skip buf16 "account.fiid" with
                                  | error e =>
                                    simp only [h17] at h
                                    exact absurd h (by simp)
                                  | ok buf17 =>
                                    simp only [h17] at h
                                    cases h18 : skip buf17 "account.custom_js" with
                                    | error e =>
                                      simp only [h18] at h
                                      exact absurd h (by simp)
                                    | ok buf18 =>
                                      simp only [h18] at h
                                      cases h19 : skip buf18 "account.submit_id" with
                                      | error e =>
                                        simp only [h19] at h
                                        exact absurd h (by simp)
                                      | ok buf19 =>
                                        simp only [h19] at h
                                        cases h20 : skip buf19 "account.captcha_id" with
                                        | error e =>
                                          simp only [h20] at h
                                          exact absurd h (by simp)
                                        | ok buf20 =>
                                          simp only [h20] at h
                                          cases h21 : skip buf20 "account.urid" with
                                          | error e =>
                                            simp only [h21] at h
                                            exact absurd h (by simp)
                                          | ok buf21 =>
                                            simp only [h21] at h
                                            cases h22 : skip buf21 "account.basic_auth" with
                                            | error e =>
                                              simp only [h22] at h
                                              exact absurd h (by simp)
                                            | ok buf22 =>
                                              simp only [h22] at h
                                              cases h23 : skip buf22 "account.method" with
                                              | error e =>
                                                simp only [h23] at h
                                                exact absurd h (by simp)
                                              | ok buf23 =>
                                                simp only [h23] at h
                                                cases h24 : skip buf23 "account.action" with
                                                | error e =>
                                                  simp only [h24] at h
                                                  exact absurd h (by simp)
                                                | ok buf24 =>
                                                  simp only [h24] at h
                                                  cases h25 : skip buf24 "account.groupid" with
                                                  | error e =>
                                                    simp only [h25] at h
                                                    exact absurd h (by simp)
                                                  | ok buf25 =>
                                                    simp only [h25] at h
                                                    cases h26 : skip buf25 "account.deleted" with
                                                    | error e =>
                                                      simp only [h26] at h
                                                      exact absurd h (by simp)
                                                    | ok buf26 =>
                                                      simp only [h26] at h
                                                      cases h27 : read_str_item buf26 "account.attachkey_encrypted" with
                                                      | error e =>
                                                        simp only [h27] at h
                                                        exact absurd h (by simp)
                                                      | ok p27 =>
                                                        obtain ⟨v27, buf27⟩ := p27
                                                        simp only [h27] at h
                                                        cases h28 : read_bool buf27 "account.attachpresent" with
                                                        | error e =>
                                                          simp only [h28] at h
                                                          exact absurd h (by simp)
                                                        | ok p28 =>
                                                          obtain ⟨v28, buf28⟩ := p28
                                                          simp only [h28] at h
                                                          cases h29 : skip buf28 "account.individualshare" with
                                                          | error e =>
                                                            simp only [h29] at h
                                                            exact absurd h (by simp)
                                                          | ok buf29 =>
                                                            simp only [h29] at h
                                                            cases h30 : read_str_item buf29 "account.notetype" with
                                                            | error e =>
                                                              simp only [h30] at h
                                                              exact absurd h (by simp)
                                                            | ok p30 =>
                                                              obtain ⟨v30, buf30⟩ := p30
                                                              simp only [h30] at h
                                                              cases h31 : skip buf30 "account.noalert" with
                                                              | error e =>
                                                                simp only [h31] at h
                                                                exact absurd h (by simp)
                                                              | ok buf31 =>
                                                                simp only [h31] at h
                                                                cases h32 : read_str_item buf31 "account.last_modified_gmt" with
                                                                | error e =>
                                                                  simp only [h32] at h
                                                                  exact absurd h (by simp)
                                                                | ok p32 =>
                                                                  obtain ⟨v32, buf32⟩ := p32
                                                                  simp only [h32] at h
                                                                  cases h33 : skip buf32 "account.hasbeenshared" with
                                                                  | error e =>
                                                                    simp only [h33] at h
                                                                    exact absurd h (by simp)
                                                                  | ok buf33 =>
                                                                    simp only [h33] at h
                                                                    cases h34 : skip buf33 "account.last_pwchange_gmt" with
                                                                    | error e =>
                                                                      simp only [h34] at h
                                                                      exact absurd h (by simp)
                                                                    | ok buf34 =>
                                                                      simp only [h34] at h
                                                                      cases h35 : skip buf34 "account.created_gmt" with
                                                                      | error e =>
                                                                        simp only [h35] at h
                                                                        exact absurd h (by simp)
                                                                      | ok buf35 =>
                                                                        simp only [h35] at h
                                                                        cases h36 : skip buf35 "account.vulnerable" with
                                                                        | error e =>
                                                                          simp only [h36] at h
                                                                          exact absurd h (by simp)
                                                                        | ok buf36 =>
                                                                          simp only [h36] at h
                                                                          cases hu : ctx.urlParse v4 with
                                                                          | none =>
                                                                            simp only [hu] at h
                                                                            exact absurd h (by simp)
                                                                          | some u =>
                                                                            simp only [hu, Except.ok.injEq] at h
                                                                            subst h
                                                                            exact ⟨rfl, rfl⟩

end LastPass
